import Mathlib

/-!
Shallow embedding of the GTFS feed analyzer in
`src/Web-App/backend/main.py` (function `process_gtfs`) and
`src/Web-App/backend/Web-App/backend/main.py` (functions
`validate_gtfs_zip` and `parse_gtfs_zip`).

Tabular relations are embedded as lists of records in file row order.
Arrival times are durations in whole seconds since midnight (GTFS
"HH:MM:SS" values, which may exceed 24h); headways are rationals in
minutes, mirroring `total_seconds()/60`.  Latitude and longitude are
rationals.  A missing CSV cell is `Option.none`.
-/

/-- One row of `trips.txt`: `trip_id`, `route_id`, `service_id`, and an
optional `shape_id` (`dropna` in the source discards the `none`s). -/
structure Trip where
  trip_id : String
  route_id : String
  service_id : String
  shape_id : Option String
  deriving DecidableEq, Repr

/-- One row of `stop_times.txt`: only `trip_id` and `arrival_time` are used
by the analyzer.  `arrival_time` is seconds since midnight, `none` when the
cell is empty (the source applies `fillna` with `00:00:00`). -/
structure StopTime where
  trip_id : String
  arrival_time : Option Nat
  deriving DecidableEq, Repr

/-- One row of `calendar.txt`: a service id and the seven day flags. -/
structure Service where
  service_id : String
  monday : Bool
  tuesday : Bool
  wednesday : Bool
  thursday : Bool
  friday : Bool
  saturday : Bool
  sunday : Bool
  deriving DecidableEq, Repr

/-- One row of `shapes.txt`: shape id, point sequence index, coordinates. -/
structure ShapePoint where
  shape_id : String
  shape_pt_sequence : Nat
  shape_pt_lat : ℚ
  shape_pt_lon : ℚ
  deriving DecidableEq, Repr

/-- The five relations loaded from the archive.  `routes` keeps only the
`route_id` column, the single column the analyzer reads from `routes.txt`
(one list element per file row, duplicates preserved). -/
structure Feed where
  routes : List String
  trips : List Trip
  stop_times : List StopTime
  calendar : List Service
  shapes : List ShapePoint
  deriving DecidableEq, Repr

/-- Source: the weekday filter on `calendar.txt` — rows with all of
`monday` .. `friday` equal to 1, projected to `service_id`. -/
def weekdayServiceIds (cal : List Service) : List String :=
  (cal.filter (fun s =>
    s.monday && s.tuesday && s.wednesday && s.thursday && s.friday)).map
    (fun s => s.service_id)

/-- Source: `trips = trips[trips.service_id.isin(weekdays)]` — the Trip
relation reduced to weekday services.  Every later use of `trips` in the
source (the merge AND the shape lookup) reads this reduced relation. -/
def filteredTrips (f : Feed) : List Trip :=
  f.trips.filter (fun t => (weekdayServiceIds f.calendar).contains t.service_id)

/-- Source: `stop_times = stop_times[stop_times.trip_id.isin(trips.trip_id)]`. -/
def filteredStopTimes (f : Feed) : List StopTime :=
  f.stop_times.filter (fun st =>
    (filteredTrips f).any (fun t => t.trip_id == st.trip_id))

/-- A row of the merged frame: route reference and arrival seconds
(after `fillna` replaced a missing time by `00:00:00`, i.e. `0`). -/
structure Event where
  route_id : String
  arrival : Nat
  deriving DecidableEq, Repr

/-- Source: `merged = trips.merge(stop_times, on=trip_id)` followed by
`fillna` on `arrival_time` — one event per (trip row, stop-time row) pair
with equal `trip_id`, carrying the `route_id` of the trip. -/
def mergedEvents (f : Feed) : List Event :=
  (filteredTrips f).flatMap (fun t =>
    ((filteredStopTimes f).filter (fun st => st.trip_id == t.trip_id)).map
      (fun st => { route_id := t.route_id, arrival := st.arrival_time.getD 0 }))

/-- Seconds count of 07:00:00. -/
def windowLo : Nat := 25200

/-- Seconds count of 22:00:00. -/
def windowHi : Nat := 79200

/-- Source: the daytime filter
`merged[(merged.arrival_time >= 07:00:00) & (merged.arrival_time <= 22:00:00)]`. -/
def windowEvents (f : Feed) : List Event :=
  (mergedEvents f).filter (fun e => windowLo ≤ e.arrival && e.arrival ≤ windowHi)

/-- The qualifying arrival seconds of one route (the `groupby(route_id)`
group of the filtered merged frame), in frame order. -/
def routeArrivals (f : Feed) (rid : String) : List Nat :=
  ((windowEvents f).filter (fun e => e.route_id == rid)).map (fun e => e.arrival)

/-- Source: `grp.arrival_time.sort_values().dt.total_seconds()/60` — the
arrivals of the group sorted ascending and converted to minutes. -/
def sortedMins (f : Feed) (rid : String) : List ℚ :=
  ((routeArrivals f rid).insertionSort (· ≤ ·)).map
    (fun s : ℕ => (s : ℚ) / 60)

/-- Pandas `Series.diff()` without its leading NaN: consecutive differences. -/
def diffs (l : List ℚ) : List ℚ :=
  List.zipWith (fun a b => b - a) l l.tail

/-- Pandas series `.max()` (never called on an empty series here). -/
def listMax : List ℚ → ℚ
  | [] => 0
  | a :: as => as.foldl max a

/-- Source: the headway loop — groups with fewer than two events produce no
entry, otherwise the entry is the maximum consecutive difference in minutes. -/
def headway? (f : Feed) (rid : String) : Option ℚ :=
  if (routeArrivals f rid).length < 2 then none
  else some (listMax (diffs (sortedMins f rid)))

/-- Source: the bucketize chain over a present headway, and the
`freq_buckets.get(route_id, unknown)` default for an absent one. -/
def classify : Option ℚ → String
  | none => "unknown"
  | some h =>
    if h ≤ 10 then "10"
    else if h ≤ 15 then "15"
    else if h ≤ 20 then "20"
    else if h ≤ 30 then "30"
    else if h ≤ 60 then "60"
    else "worse"

/-- The bucket of a route: `freq_buckets.get(r.route_id, unknown)`. -/
def routeBucket (f : Feed) (rid : String) : String :=
  classify (headway? f rid)

/-- The `defaultdict(int)` increment, `m[k] += 1`: bump an existing key in
place, or append the key (Python dicts keep insertion order) with count 1. -/
def bump (m : List (String × Nat)) (k : String) : List (String × Nat) :=
  match m with
  | [] => [(k, 1)]
  | (k₀, v) :: rest =>
    if k₀ == k then (k₀, v + 1) :: rest else (k₀, v) :: bump rest k

/-- Source: the counting loop `freq_counts[b] += 1` over the Route relation
in row order. -/
def freqCounts (f : Feed) : List (String × Nat) :=
  f.routes.foldl (fun m r => bump m (routeBucket f r)) []

/-- The trip rows scanned by the shape lookup of one route:
`trips[trips.route_id == rid]` — over the weekday-FILTERED trip relation,
since `trips` was reassigned by the service filter. -/
def tripsFor (f : Feed) (rid : String) : List Trip :=
  (filteredTrips f).filter (fun t => t.route_id == rid)

/-- Source: `sids = trips[trips.route_id==rid].shape_id.dropna().unique()`
then `sids[0]`.  `dropna` discards null shape references and `unique` keeps
first occurrences in order, so `sids` is empty iff no row has a non-null
shape reference, and `sids[0]` is the first non-null reference in scan
order; the embedding keeps exactly the two observations the source makes
of `sids` (emptiness and first element). -/
def firstShapeId (f : Feed) (rid : String) : Option String :=
  ((tripsFor f rid).filterMap (fun t => t.shape_id)).head?

/-- The rows of `shapes.txt` with the given shape id, in file order. -/
def pointsOf (f : Feed) (sid : String) : List ShapePoint :=
  f.shapes.filter (fun p => p.shape_id == sid)

/-- The `sort_values(shape_pt_sequence)` key order on shape points. -/
def seqLe (p q : ShapePoint) : Prop :=
  p.shape_pt_sequence ≤ q.shape_pt_sequence

instance : DecidableRel seqLe := fun p q =>
  Nat.decLe p.shape_pt_sequence q.shape_pt_sequence

instance : IsTotal ShapePoint seqLe :=
  ⟨fun p q => Nat.le_total p.shape_pt_sequence q.shape_pt_sequence⟩

instance : IsTrans ShapePoint seqLe :=
  ⟨fun _ _ _ h h' => Nat.le_trans h h'⟩

/-- Source: `shapes[shapes.shape_id==sid].sort_values(shape_pt_sequence)`
projected to `[[lat, lon], ...]`. -/
def shapeCoords (f : Feed) (sid : String) : List (ℚ × ℚ) :=
  ((pointsOf f sid).insertionSort seqLe).map
    (fun p => (p.shape_pt_lat, p.shape_pt_lon))

/-- One element of the `routes` list of the result. -/
structure RouteRecord where
  route_id : String
  frequency_bucket : String
  shape : List (ℚ × ℚ)
  deriving DecidableEq, Repr

/-- Source: the `route_shapes` loop — a record is appended ONLY under
`if len(sids):` / `if sids.size:`, i.e. only when the route has a first
non-null shape reference; otherwise the loop appends nothing for it. -/
def routeRecords (f : Feed) : List RouteRecord :=
  f.routes.filterMap (fun rid =>
    match firstShapeId f rid with
    | some sid =>
      some { route_id := rid, frequency_bucket := routeBucket f rid,
             shape := shapeCoords f sid }
    | none => none)

/-- The assembled result of one analysis run (`frequencies`, `routes`). -/
structure Output where
  frequencies : List (String × Nat)
  routes : List RouteRecord
  deriving DecidableEq, Repr

/-- The pure pipeline from loaded relations to the assembled result. -/
def analyzeFeed (f : Feed) : Output :=
  { frequencies := freqCounts f, routes := routeRecords f }

/-- Source: `REQUIRED_GTFS_FILES`, written in set-literal order. -/
def requiredFiles : List String :=
  ["routes.txt", "trips.txt", "stop_times.txt", "calendar.txt", "shapes.txt"]

/-- Lexicographic comparison of char lists by code point, the order
Python applies when `sorted` runs on strings. -/
def charListLe : List Char → List Char → Bool
  | [], _ => true
  | _ :: _, [] => false
  | a :: as, b :: bs =>
    if a.toNat < b.toNat then true
    else if b.toNat < a.toNat then false
    else charListLe as bs

/-- The Python string order, as a proposition on Lean strings. -/
def lexLe (a b : String) : Prop :=
  charListLe a.data b.data = true

instance : DecidableRel lexLe := fun a b =>
  instDecidableEqBool (charListLe a.data b.data) true

/-- Python `sorted(...)` on a collection of strings. -/
def sortStrings (l : List String) : List String :=
  l.insertionSort lexLe

/-- Source: `missing = REQUIRED_GTFS_FILES - set(z.namelist())`, then
`sorted(missing)` as rendered into the 422 detail of `validate_gtfs_zip`. -/
def missingNames (names : List String) : List String :=
  sortStrings (requiredFiles.filter (fun n => !(names.contains n)))

/-- The error taxonomy of `parse_gtfs_zip`: the 422 `HTTPException`
listing the missing required file names, the `GTFS feed expired`
exception, and the `Error reading GTFS files` exception. -/
inductive RunError where
  | missingRequiredFiles (names : List String)
  | feedExpired
  | malformedFeed
  deriving DecidableEq, Repr

/-- An uploaded archive as `parse_gtfs_zip` observes it: its entry name
list, whether `feed_info.txt` declares an end date already in the past
(abstracting the comparison with the ambient current date), whether the
five `read_csv` calls succeed, and the relations they would yield. -/
structure Archive where
  names : List String
  expired : Bool
  parseOk : Bool
  feed : Feed
  deriving DecidableEq, Repr

/-- The observable outcome of one `parse_gtfs_zip` run: the returned
value or propagated error, and whether the `tempfile.mkdtemp()` scratch
extraction directory of this run still exists afterwards. -/
structure RunOutcome where
  result : Except RunError Output
  scratchRemains : Bool

/-- Shallow embedding of `parse_gtfs_zip`, path by path:
`validate_gtfs_zip` raises the 422 before `mkdtemp`, so no scratch
directory exists on that path; the expired-feed raise and the
`read_csv` failure raise happen after `mkdtemp` with no enclosing
`try/finally`, so the scratch directory survives them; the success path
runs the cleanup loop (`os.remove` each entry, `os.rmdir`) before
returning. -/
def parse_gtfs_zip (a : Archive) : RunOutcome :=
  if (missingNames a.names) ≠ [] then
    { result := .error (.missingRequiredFiles (missingNames a.names)),
      scratchRemains := false }
  else if a.expired then
    { result := .error .feedExpired, scratchRemains := true }
  else if !a.parseOk then
    { result := .error .malformedFeed, scratchRemains := true }
  else
    { result := .ok (analyzeFeed a.feed), scratchRemains := false }

/-- Totality of the Python string order (on char lists). -/
theorem charListLe_total : ∀ (a b : List Char),
    charListLe a b = true ∨ charListLe b a = true
  | [], _ => .inl rfl
  | _ :: _, [] => .inr rfl
  | x :: xs, y :: ys => by
    simp only [charListLe]
    rcases charListLe_total xs ys with h | h <;>
      split_ifs with h₁ h₂ <;> simp_all

/-- Transitivity of the Python string order (on char lists). -/
theorem charListLe_trans : ∀ {a b c : List Char},
    charListLe a b = true → charListLe b c = true → charListLe a c = true
  | [], _, _, _, _ => rfl
  | _ :: _, [], _, h₁, _ => absurd h₁ (by simp [charListLe])
  | _ :: _, _ :: _, [], _, h₂ => absurd h₂ (by simp [charListLe])
  | x :: xs, y :: ys, z :: zs, h₁, h₂ => by
    simp only [charListLe] at h₁ h₂ ⊢
    split_ifs at h₁ h₂ ⊢ <;>
      first
        | rfl
        | omega
        | (exact charListLe_trans h₁ h₂)

instance : IsTotal String lexLe :=
  ⟨fun a b => charListLe_total a.data b.data⟩

instance : IsTrans String lexLe :=
  ⟨fun _ _ _ h h' => charListLe_trans h h'⟩

/-- Membership in the sorted missing-file list: exactly the required names
absent from the archive listing. -/
theorem mem_missingNames (names : List String) (n : String) :
    n ∈ missingNames names ↔ n ∈ requiredFiles ∧ n ∉ names := by
  unfold missingNames sortStrings
  rw [(List.perm_insertionSort lexLe _).mem_iff, List.mem_filter]
  simp

/-- C5: the frequency classifier is a total function on optional headways
with inclusive upper bounds 10, 15, 20, 30, 60, the `worse` overflow
bucket, and `unknown` for an absent headway; the boundary `h = 10` falls
in bucket `10`. -/
theorem C5_classifier_buckets :
    (∀ h : ℚ, h ≤ 10 → classify (some h) = "10") ∧
    (∀ h : ℚ, 10 < h → h ≤ 15 → classify (some h) = "15") ∧
    (∀ h : ℚ, 15 < h → h ≤ 20 → classify (some h) = "20") ∧
    (∀ h : ℚ, 20 < h → h ≤ 30 → classify (some h) = "30") ∧
    (∀ h : ℚ, 30 < h → h ≤ 60 → classify (some h) = "60") ∧
    (∀ h : ℚ, 60 < h → classify (some h) = "worse") ∧
    classify none = "unknown" ∧
    classify (some 10) = "10" := by
  refine ⟨fun h hle => ?_, fun h hlt hle => ?_, fun h hlt hle => ?_,
    fun h hlt hle => ?_, fun h hlt hle => ?_, fun h hlt => ?_, rfl, ?_⟩
  · simp only [classify]; rw [if_pos hle]
  · simp only [classify]; rw [if_neg (by linarith), if_pos hle]
  · simp only [classify]; rw [if_neg (by linarith), if_neg (by linarith), if_pos hle]
  · simp only [classify]
    rw [if_neg (by linarith), if_neg (by linarith), if_neg (by linarith),
      if_pos hle]
  · simp only [classify]
    rw [if_neg (by linarith), if_neg (by linarith), if_neg (by linarith),
      if_neg (by linarith), if_pos hle]
  · simp only [classify]
    rw [if_neg (by linarith), if_neg (by linarith), if_neg (by linarith),
      if_neg (by linarith), if_neg (by linarith)]
  · norm_num [classify]

/-- Witness for C5: a 12-minute headway lands in bucket `15`, via the
classifier theorem applied at `h = 12`. -/
theorem C5_classifier_buckets_witness : classify (some 12) = "15" :=
  C5_classifier_buckets.2.1 12 (by norm_num) (by norm_num)

/-- A weekday service (all five weekday flags set). -/
def wkService : Service :=
  { service_id := "wk", monday := true, tuesday := true, wednesday := true,
    thursday := true, friday := true, saturday := false, sunday := false }

/-- A Saturday-only service (no weekday flag set). -/
def satService : Service :=
  { service_id := "sat", monday := false, tuesday := false,
    wednesday := false, thursday := false, friday := false,
    saturday := true, sunday := false }

/-- An archive carrying all five required files whose feed metadata
declares an already-past end date. -/
def expiredArchive : Archive :=
  { names := ["routes.txt", "trips.txt", "stop_times.txt", "calendar.txt",
      "shapes.txt", "feed_info.txt"],
    expired := true, parseOk := true,
    feed := { routes := [], trips := [], stop_times := [], calendar := [],
              shapes := [] } }

/-- An archive carrying all five required files, one of which fails to
parse as CSV. -/
def malformedArchive : Archive :=
  { names := ["routes.txt", "trips.txt", "stop_times.txt", "calendar.txt",
      "shapes.txt"],
    expired := false, parseOk := false,
    feed := { routes := [], trips := [], stop_times := [], calendar := [],
              shapes := [] } }

/-- C2: refuted by the code — on the feed-expired and parse-failure exit
paths of `parse_gtfs_zip` the error propagates while the scratch
extraction directory created by `mkdtemp` is still present (the raise
happens after `mkdtemp` with no enclosing `try/finally`), so the
directory is NOT removed on every exit path. -/
theorem C2_scratch_dir_leak :
    (parse_gtfs_zip expiredArchive).result = .error .feedExpired ∧
    (parse_gtfs_zip expiredArchive).scratchRemains = true ∧
    (parse_gtfs_zip malformedArchive).result = .error .malformedFeed ∧
    (parse_gtfs_zip malformedArchive).scratchRemains = true :=
  ⟨rfl, rfl, rfl, rfl⟩

/-- C4: a run on an archive missing at least one required relation file
fails with the missing-files error listing exactly the absent required
names in sorted (Python string) order; concretely, an archive with only
`routes.txt`, `trips.txt` and `stop_times.txt` reports
`["calendar.txt", "shapes.txt"]` in that order. -/
theorem C4_missing_files_sorted (a : Archive)
    (h : ∃ r ∈ requiredFiles, r ∉ a.names) :
    (parse_gtfs_zip a).result =
      .error (.missingRequiredFiles (missingNames a.names)) ∧
    (missingNames a.names).Sorted lexLe ∧
    (∀ n, n ∈ missingNames a.names ↔ n ∈ requiredFiles ∧ n ∉ a.names) ∧
    missingNames ["routes.txt", "trips.txt", "stop_times.txt"] =
      ["calendar.txt", "shapes.txt"] := by
  obtain ⟨r, hr, hnot⟩ := h
  have hne : missingNames a.names ≠ [] := by
    intro he
    have : r ∈ missingNames a.names := (mem_missingNames _ _).mpr ⟨hr, hnot⟩
    simp [he] at this
  refine ⟨?_, ?_, mem_missingNames a.names, by decide⟩
  · simp [parse_gtfs_zip, hne]
  · exact List.sorted_insertionSort lexLe _

/-- An archive listing only three of the five required files. -/
def threeFileArchive : Archive :=
  { names := ["routes.txt", "trips.txt", "stop_times.txt"],
    expired := false, parseOk := true,
    feed := { routes := [], trips := [], stop_times := [], calendar := [],
              shapes := [] } }

/-- Witness for C4: the archive listing only three of the required files
run through the theorem at that concrete input. -/
theorem C4_missing_files_sorted_witness :
    (parse_gtfs_zip threeFileArchive).result =
      .error (.missingRequiredFiles ["calendar.txt", "shapes.txt"]) := by
  have h := C4_missing_files_sorted threeFileArchive
    ⟨"calendar.txt", by decide, by decide⟩
  rw [h.1]
  have : missingNames threeFileArchive.names = ["calendar.txt", "shapes.txt"] :=
    by decide
  rw [this]

/-- One `defaultdict` increment adds exactly one to the total count. -/
theorem bump_snd_sum (m : List (String × Nat)) (k : String) :
    ((bump m k).map Prod.snd).sum = (m.map Prod.snd).sum + 1 := by
  induction m with
  | nil => simp [bump]
  | cons p rest ih =>
    obtain ⟨k₀, v⟩ := p
    by_cases h : k₀ == k <;> simp [bump, h, ih] <;> omega

/-- The counting fold adds the length of the iterated route list to the
total count. -/
theorem freq_fold_sum (f : Feed) (rs : List String) (m : List (String × Nat)) :
    ((rs.foldl (fun m r => bump m (routeBucket f r)) m).map Prod.snd).sum
      = (m.map Prod.snd).sum + rs.length := by
  induction rs generalizing m with
  | nil => simp
  | cons r rs ih =>
    rw [List.foldl_cons, ih, bump_snd_sum]
    simp
    omega

/-- C6: every route is tallied into exactly one bucket, so the counts in
the assembled `frequencies` mapping sum to the number of rows of the
routes relation. -/
theorem C6_frequencies_sum_routes (f : Feed) :
    ((analyzeFeed f).frequencies.map Prod.snd).sum = f.routes.length := by
  have h := freq_fold_sum f f.routes []
  simpa [analyzeFeed, freqCounts] using h

/-- A key occurs in `bump m k` iff it is `k` or already occurs in `m`. -/
theorem bump_keys (m : List (String × Nat)) (k k' : String) :
    k' ∈ (bump m k).map Prod.fst ↔ k' = k ∨ k' ∈ m.map Prod.fst := by
  induction m with
  | nil => simp [bump]
  | cons p rest ih =>
    obtain ⟨k₀, v₀⟩ := p
    by_cases h : k₀ = k
    · subst h
      simp [bump]
    · have hb : (k₀ == k) = false := by simpa using h
      simp [bump, hb, ih]
      tauto

/-- Increments keep every stored count positive. -/
theorem bump_pos (m : List (String × Nat)) (k : String)
    (h : ∀ p ∈ m, 0 < p.2) : ∀ p ∈ bump m k, 0 < p.2 := by
  induction m with
  | nil => simp [bump]
  | cons q rest ih =>
    obtain ⟨k₀, v₀⟩ := q
    by_cases hk : k₀ == k
    · intro p hp
      rcases List.mem_cons.mp (by simpa [bump, hk] using hp) with h' | h'
      · simp [h']
      · exact h p (List.mem_cons_of_mem _ h')
    · intro p hp
      rcases List.mem_cons.mp (by simpa [bump, hk] using hp) with h' | h'
      · exact h p (by simp [h'])
      · exact ih (fun q hq => h q (List.mem_cons_of_mem _ hq)) p h'

/-- Key membership across the whole counting fold. -/
theorem freq_fold_keys (f : Feed) (rs : List String) (m : List (String × Nat))
    (k : String) :
    k ∈ (rs.foldl (fun m r => bump m (routeBucket f r)) m).map Prod.fst ↔
      (∃ r ∈ rs, routeBucket f r = k) ∨ k ∈ m.map Prod.fst := by
  induction rs generalizing m with
  | nil => simp
  | cons r rs ih =>
    rw [List.foldl_cons, ih, bump_keys]
    constructor
    · rintro (⟨r', hr', hbk⟩ | h | h)
      · exact .inl ⟨r', List.mem_cons_of_mem _ hr', hbk⟩
      · exact .inl ⟨r, List.mem_cons_self r rs, h.symm⟩
      · exact .inr h
    · rintro (⟨r', hr', hbk⟩ | h)
      · rcases List.mem_cons.mp hr' with h' | h'
        · subst h'
          exact .inr (.inl hbk.symm)
        · exact .inl ⟨r', h', hbk⟩
      · exact .inr (.inr h)

/-- Positivity across the whole counting fold. -/
theorem freq_fold_pos (f : Feed) (rs : List String) (m : List (String × Nat))
    (h : ∀ p ∈ m, 0 < p.2) :
    ∀ p ∈ rs.foldl (fun m r => bump m (routeBucket f r)) m, 0 < p.2 := by
  induction rs generalizing m with
  | nil => exact h
  | cons r rs ih => exact ih _ (bump_pos _ _ h)

/-- C10: a bucket label is a key of the assembled `frequencies` mapping
iff at least one route of the routes relation was tallied into it, and
every key present carries a strictly positive count — zero-count labels
are absent rather than present with value 0. -/
theorem C10_frequencies_keys (f : Feed) (lbl : String) :
    (lbl ∈ (analyzeFeed f).frequencies.map Prod.fst ↔
      ∃ rid ∈ f.routes, routeBucket f rid = lbl) ∧
    ∀ p ∈ (analyzeFeed f).frequencies, 0 < p.2 := by
  constructor
  · have h := freq_fold_keys f f.routes [] lbl
    simpa [analyzeFeed, freqCounts] using h
  · have h := freq_fold_pos f f.routes [] (by simp)
    simpa [analyzeFeed, freqCounts] using h

/-- C7: the daytime filter keeps exactly the merged stop events whose
arrival lies in the closed window `[07:00:00, 22:00:00]`; an event whose
stop-time row has no arrival value enters the merged frame with the
defaulted arrival `00:00:00`, which the window excludes; and a route all
of whose merged events fall outside the window gets bucket `unknown`. -/
theorem C7_daytime_window (f : Feed) :
    (∀ e : Event, e ∈ windowEvents f ↔
        e ∈ mergedEvents f ∧ windowLo ≤ e.arrival ∧ e.arrival ≤ windowHi) ∧
    (∀ t ∈ filteredTrips f, ∀ st ∈ filteredStopTimes f,
        st.trip_id = t.trip_id → st.arrival_time = none →
          ({ route_id := t.route_id, arrival := 0 } : Event) ∈ mergedEvents f ∧
          ({ route_id := t.route_id, arrival := 0 } : Event) ∉ windowEvents f) ∧
    (∀ rid : String,
        (∀ e ∈ mergedEvents f, e.route_id = rid →
            e.arrival < windowLo ∨ windowHi < e.arrival) →
          routeBucket f rid = "unknown") := by
  refine ⟨fun e => ?_, fun t ht st hst hid harr => ⟨?_, ?_⟩, fun rid hout => ?_⟩
  · simp [windowEvents, List.mem_filter, and_assoc]
  · rw [mergedEvents, List.mem_flatMap]
    refine ⟨t, ht, ?_⟩
    rw [List.mem_map]
    exact ⟨st, List.mem_filter.mpr ⟨hst, by simp [hid]⟩, by simp [harr]⟩
  · intro hmem
    have h := List.mem_filter.mp hmem
    simp [windowLo] at h
  · have harr : routeArrivals f rid = [] := by
      rw [routeArrivals, List.filter_eq_nil_iff.mpr, List.map_nil]
      intro e he
      have h1 := List.mem_filter.mp he
      have h2 : windowLo ≤ e.arrival ∧ e.arrival ≤ windowHi := by
        have := h1.2
        simp at this
        exact this
      intro hbeq
      have hrid : e.route_id = rid := by simpa using hbeq
      rcases hout e h1.1 hrid with h | h
      · omega
      · omega
    rw [routeBucket, headway?, harr]
    simp [classify]

/-- A feed whose single route has all stop events at 06:00:00. -/
def earlyFeed : Feed :=
  { routes := ["r1"],
    trips := [{ trip_id := "t1", route_id := "r1", service_id := "wk",
                shape_id := none }],
    stop_times := [{ trip_id := "t1", arrival_time := some 21600 },
                   { trip_id := "t1", arrival_time := some 21600 }],
    calendar := [wkService], shapes := [] }

/-- Witness for C7: the feed with every event at 06:00 run through the
theorem — the route lands in bucket `unknown`. -/
theorem C7_daytime_window_witness : routeBucket earlyFeed "r1" = "unknown" :=
  (C7_daytime_window earlyFeed).2.2 "r1" (by decide)

/-- A feed whose single route has a weekday trip, stop events, but no
trip with a non-null shape reference. -/
def noShapeFeed : Feed :=
  { routes := ["r1"],
    trips := [{ trip_id := "t1", route_id := "r1", service_id := "wk",
                shape_id := none }],
    stop_times := [{ trip_id := "t1", arrival_time := some 25200 }],
    calendar := [wkService], shapes := [] }

/-- C1 as stated is refuted by the code: in `noShapeFeed` the route `r1`
is in the routes relation and none of its trips carries a shape
reference, yet the assembled `routes` sequence contains NO record for it
at all (the loop appends only under `if len(sids):`), rather than a
record with an empty coordinate sequence. -/
theorem C1_counterexample :
    "r1" ∈ noShapeFeed.routes ∧
    (∀ t ∈ noShapeFeed.trips, t.route_id = "r1" ∧ t.shape_id = none) ∧
    (analyzeFeed noShapeFeed).routes = [] := by
  refine ⟨by decide, by decide, ?_⟩
  show routeRecords noShapeFeed = []
  decide

/-- C1 amended: a route of the routes relation has a record in the
assembled `routes` sequence iff its (weekday-filtered) trips include one
with a non-null shape reference; a route with none is silently omitted
from the sequence (no error), while still being tallied in
`frequencies`. -/
theorem C1_route_record_iff_shape (f : Feed) (rid : String)
    (hr : rid ∈ f.routes) :
    (∃ rec ∈ (analyzeFeed f).routes, rec.route_id = rid) ↔
      firstShapeId f rid ≠ none := by
  constructor
  · rintro ⟨rec, hmem, hrid⟩
    have hmem' : rec ∈ routeRecords f := hmem
    obtain ⟨rid', hrid', hmk⟩ := List.mem_filterMap.mp hmem'
    cases hs : firstShapeId f rid' with
    | none => rw [hs] at hmk; simp at hmk
    | some sid =>
      rw [hs] at hmk
      simp only [Option.some.injEq] at hmk
      have : rid' = rid := by rw [← hmk] at hrid; simpa using hrid
      rw [← this, hs]
      simp
  · intro hne
    cases hs : firstShapeId f rid with
    | none => exact absurd hs hne
    | some sid =>
      refine ⟨{ route_id := rid, frequency_bucket := routeBucket f rid,
                shape := shapeCoords f sid }, ?_, rfl⟩
      show _ ∈ routeRecords f
      exact List.mem_filterMap.mpr ⟨rid, hr, by rw [hs]⟩

/-- A feed where the first trip of the route has a null shape reference
and the second carries shape `s1`. -/
def shapeFeed : Feed :=
  { routes := ["r1"],
    trips := [{ trip_id := "t1", route_id := "r1", service_id := "wk",
                shape_id := none },
              { trip_id := "t2", route_id := "r1", service_id := "wk",
                shape_id := some "s1" }],
    stop_times := [],
    calendar := [wkService],
    shapes := [{ shape_id := "s1", shape_pt_sequence := 2,
                 shape_pt_lat := 3, shape_pt_lon := 4 },
               { shape_id := "s1", shape_pt_sequence := 1,
                 shape_pt_lat := 1, shape_pt_lon := 2 }] }

/-- Witness for the amended C1: in `shapeFeed` the route has a
shape-bearing trip, and a record for it appears, via the theorem. -/
theorem C1_route_record_iff_shape_witness :
    ∃ rec ∈ (analyzeFeed shapeFeed).routes, rec.route_id = "r1" :=
  (C1_route_record_iff_shape shapeFeed "r1" (by decide)).mpr (by decide)

/-- Modelled from the spec: the spec asserts that shape lookup scans the
FULL Trip relation, independent of the weekday service filter; this
definition is that full-relation lookup, for comparison with
`firstShapeId`, which scans the filtered relation the source actually
uses. -/
def firstShapeIdSpec (f : Feed) (rid : String) : Option String :=
  ((f.trips.filter (fun t => t.route_id == rid)).filterMap
    (fun t => t.shape_id)).head?

/-- A feed whose only shape-bearing trip belongs to a Saturday-only
service. -/
def satOnlyFeed : Feed :=
  { routes := ["r1"],
    trips := [{ trip_id := "t1", route_id := "r1", service_id := "sat",
                shape_id := some "s1" }],
    stop_times := [],
    calendar := [wkService, satService],
    shapes := [{ shape_id := "s1", shape_pt_sequence := 1,
                 shape_pt_lat := 1, shape_pt_lon := 2 }] }

/-- C3 as stated is refuted by the code: in `satOnlyFeed` a full-relation
scan finds shape `s1` for route `r1`, but the code scans the
weekday-filtered trip relation (the source reassigns `trips` before the
shape lookup), finds no shape reference, and omits the record — the
route does NOT still get that shape. -/
theorem C3_counterexample :
    firstShapeIdSpec satOnlyFeed "r1" = some "s1" ∧
    firstShapeId satOnlyFeed "r1" = none ∧
    (analyzeFeed satOnlyFeed).routes = [] := by
  refine ⟨by decide, by decide, ?_⟩
  show routeRecords satOnlyFeed = []
  decide

/-- C3 amended: the representative-shape lookup is independent of the
stop_times relation (hence of the daytime-window filter), but it scans
the weekday-service-filtered Trip relation: it equals the full-relation
lookup applied to the filtered trips. -/
theorem C3_shape_lookup_filtered (f : Feed) (st' : List StopTime)
    (rid : String) :
    firstShapeId { f with stop_times := st' } rid = firstShapeId f rid ∧
    firstShapeId f rid =
      firstShapeIdSpec { f with trips := filteredTrips f } rid := by
  constructor <;> rfl

/-- The head of a `filterMap` is the image of the first element mapped to
`some`, every earlier element mapping to `none`. -/
theorem head?_filterMap_eq_some {α β : Type} (g : α → Option β) :
    ∀ (l : List α) (b : β),
      (l.filterMap g).head? = some b ↔
        ∃ pre x post, l = pre ++ x :: post ∧ g x = some b ∧
          ∀ y ∈ pre, g y = none
  | [], b => by simp
  | a :: l, b => by
    cases hga : g a with
    | some b' =>
      simp only [List.filterMap_cons, hga, List.head?_cons, Option.some.injEq]
      constructor
      · rintro rfl
        exact ⟨[], a, l, rfl, hga, by simp⟩
      · rintro ⟨pre, x, post, hd, hgx, hpre⟩
        cases pre with
        | nil =>
          obtain ⟨rfl, rfl⟩ := List.cons.injEq .. ▸ hd
          rw [hga] at hgx
          exact Option.some.injEq .. ▸ hgx
        | cons a' pre' =>
          obtain ⟨rfl, -⟩ :=
            List.cons.injEq .. ▸ (by simpa using hd : a :: l = a' :: (pre' ++ x :: post))
          exact absurd hga (by simp [hpre a (List.mem_cons_self a pre')])
    | none =>
      simp only [List.filterMap_cons, hga]
      rw [head?_filterMap_eq_some g l b]
      constructor
      · rintro ⟨pre, x, post, rfl, hgx, hpre⟩
        refine ⟨a :: pre, x, post, rfl, hgx, ?_⟩
        intro y hy
        rcases List.mem_cons.mp hy with rfl | hy
        · exact hga
        · exact hpre y hy
      · rintro ⟨pre, x, post, hd, hgx, hpre⟩
        cases pre with
        | nil =>
          obtain ⟨rfl, rfl⟩ := List.cons.injEq .. ▸ hd
          rw [hga] at hgx
          exact absurd hgx (by simp)
        | cons a' pre' =>
          obtain ⟨rfl, htl⟩ :=
            List.cons.injEq .. ▸ (by simpa using hd : a :: l = a' :: (pre' ++ x :: post))
          exact ⟨pre', x, post, htl, hgx, fun y hy =>
            hpre y (List.mem_cons_of_mem _ hy)⟩

/-- C9: when the shape resolver of a route returns a shape id, that id
comes from the first trip in scan order with a non-null shape reference
(null references earlier in scan order are skipped); the emitted
coordinates are the points of that shape ordered ascending by sequence
index and projected to (lat, lon); and for a route of the routes
relation the corresponding record is in the assembled `routes` list. -/
theorem C9_shape_resolver (f : Feed) (rid sid : String)
    (hs : firstShapeId f rid = some sid) :
    (∃ pre t post, tripsFor f rid = pre ++ t :: post ∧
        t.shape_id = some sid ∧ ∀ t' ∈ pre, t'.shape_id = none) ∧
    (∃ pts : List ShapePoint, pts.Perm (pointsOf f sid) ∧
        pts.Sorted seqLe ∧
        shapeCoords f sid =
          pts.map (fun p => (p.shape_pt_lat, p.shape_pt_lon))) ∧
    (rid ∈ f.routes →
      ({ route_id := rid, frequency_bucket := routeBucket f rid,
         shape := shapeCoords f sid } : RouteRecord) ∈
        (analyzeFeed f).routes) := by
  refine ⟨(head?_filterMap_eq_some _ _ _).mp hs, ?_, fun hr => ?_⟩
  · exact ⟨(pointsOf f sid).insertionSort seqLe,
      List.perm_insertionSort seqLe _, List.sorted_insertionSort seqLe _, rfl⟩
  · show _ ∈ routeRecords f
    exact List.mem_filterMap.mpr ⟨rid, hr, by rw [hs]⟩

/-- Witness for C9: in `shapeFeed` the first trip has a null shape
reference and the resolver still returns the shape of the second trip,
via the theorem at that concrete input. -/
theorem C9_shape_resolver_witness :
    firstShapeId shapeFeed "r1" = some "s1" ∧
    ∃ pre t post, tripsFor shapeFeed "r1" = pre ++ t :: post ∧
      t.shape_id = some "s1" ∧ ∀ t' ∈ pre, t'.shape_id = none :=
  ⟨by decide, (C9_shape_resolver shapeFeed "r1" "s1" (by decide)).1⟩

/-- The running fold of `max` dominates its seed and every element. -/
theorem foldl_max_ge (l : List ℚ) (a : ℚ) :
    a ≤ l.foldl max a ∧ ∀ x ∈ l, x ≤ l.foldl max a := by
  induction l generalizing a with
  | nil => simp
  | cons b bs ih =>
    obtain ⟨h1, h2⟩ := ih (max a b)
    refine ⟨le_trans (le_max_left a b) h1, ?_⟩
    intro x hx
    rcases List.mem_cons.mp hx with rfl | hx
    · exact le_trans (le_max_right a x) h1
    · exact h2 x hx

/-- The running fold of `max` returns its seed or an element. -/
theorem foldl_max_mem (l : List ℚ) (a : ℚ) :
    l.foldl max a = a ∨ l.foldl max a ∈ l := by
  induction l generalizing a with
  | nil => simp
  | cons b bs ih =>
    rw [List.foldl_cons]
    rcases ih (max a b) with h | h
    · rcases max_choice a b with h' | h'
      · exact .inl (by rw [h, h'])
      · exact .inr (by rw [h, h']; exact List.mem_cons_self b bs)
    · exact .inr (List.mem_cons_of_mem _ h)

/-- The series max of a nonempty list is an element of the list. -/
theorem listMax_mem {l : List ℚ} (h : l ≠ []) : listMax l ∈ l := by
  cases l with
  | nil => exact absurd rfl h
  | cons a as =>
    rw [listMax]
    rcases foldl_max_mem as a with h' | h'
    · rw [h']
      exact List.mem_cons_self a as
    · exact List.mem_cons_of_mem _ h'

/-- The series max dominates every element of the list. -/
theorem le_listMax {l : List ℚ} : ∀ x ∈ l, x ≤ listMax l := by
  cases l with
  | nil => simp
  | cons a as =>
    intro x hx
    rw [listMax]
    rcases List.mem_cons.mp hx with rfl | hx
    · exact (foldl_max_ge as x).1
    · exact (foldl_max_ge as a).2 x hx

/-- The consecutive-difference list is one shorter than its source. -/
theorem diffs_length (l : List ℚ) : (diffs l).length = l.length - 1 := by
  rw [diffs, List.length_zipWith, List.length_tail]
  omega

/-- C8: a route with fewer than two qualifying events has no headway
entry, and a present headway is the maximum of the consecutive
differences of the qualifying arrival minutes sorted ascending: it is
one of those differences and dominates them all, over a sorted
permutation of the qualifying arrivals converted to minutes. -/
theorem C8_headway_is_max_gap (f : Feed) (rid : String) :
    (headway? f rid = none ↔ (routeArrivals f rid).length < 2) ∧
    (∀ h : ℚ, headway? f rid = some h →
      (sortedMins f rid).Sorted (· ≤ ·) ∧
      (sortedMins f rid).Perm
        ((routeArrivals f rid).map (fun s : ℕ => (s : ℚ) / 60)) ∧
      h ∈ diffs (sortedMins f rid) ∧
      ∀ d ∈ diffs (sortedMins f rid), d ≤ h) := by
  constructor
  · constructor
    · intro h
      by_contra hlt
      rw [headway?, if_neg hlt] at h
      exact Option.noConfusion h
    · intro h
      rw [headway?, if_pos h]
  · intro h hsome
    have hlen : ¬ (routeArrivals f rid).length < 2 := by
      intro hlt
      rw [headway?, if_pos hlt] at hsome
      exact Option.noConfusion hsome
    rw [headway?, if_neg hlen] at hsome
    have hmax : listMax (diffs (sortedMins f rid)) = h :=
      Option.some.injEq .. ▸ hsome
    have hslen : (sortedMins f rid).length = (routeArrivals f rid).length := by
      rw [sortedMins, List.length_map,
        (List.perm_insertionSort (· ≤ ·) (routeArrivals f rid)).length_eq]
    refine ⟨?_, (List.perm_insertionSort (· ≤ ·) _).map _, ?_, ?_⟩
    · have hsorted :=
        List.sorted_insertionSort (α := ℕ) (· ≤ ·) (routeArrivals f rid)
      refine List.Pairwise.map _ (fun a b hab => ?_) hsorted
      have hc : (a : ℚ) ≤ (b : ℚ) := by exact_mod_cast hab
      gcongr
    · rw [← hmax]
      apply listMax_mem
      intro hnil
      have hd := diffs_length (sortedMins f rid)
      rw [hnil] at hd
      simp at hd
      omega
    · rw [← hmax]
      exact le_listMax

/-- A feed whose single route has two qualifying events 10 minutes
apart. -/
def tenFeed : Feed :=
  { routes := ["r1"],
    trips := [{ trip_id := "t1", route_id := "r1", service_id := "wk",
                shape_id := none }],
    stop_times := [{ trip_id := "t1", arrival_time := some 25200 },
                   { trip_id := "t1", arrival_time := some 25800 }],
    calendar := [wkService], shapes := [] }

/-- Witness for C8: in `tenFeed` the headway is 10 and, via the theorem,
10 is one of the consecutive gaps and dominates them all. -/
theorem C8_headway_is_max_gap_witness :
    (10 : ℚ) ∈ diffs (sortedMins tenFeed "r1") ∧
    ∀ d ∈ diffs (sortedMins tenFeed "r1"), d ≤ 10 := by
  have h := (C8_headway_is_max_gap tenFeed "r1").2 10 (by
    norm_num [headway?, routeArrivals, windowEvents, mergedEvents,
      filteredTrips, filteredStopTimes, weekdayServiceIds, sortedMins,
      diffs, listMax, windowLo, windowHi, tenFeed, wkService])
  exact ⟨h.2.2.1, h.2.2.2⟩

/-- Witness for C10: in `tenFeed` the single route lands in bucket `10`,
so via the theorem the label `10` is a key of the mapping. -/
theorem C10_frequencies_keys_witness :
    "10" ∈ (analyzeFeed tenFeed).frequencies.map Prod.fst :=
  (C10_frequencies_keys tenFeed "10").1.mpr ⟨"r1", by decide, by
    norm_num [routeBucket, classify, headway?, routeArrivals, windowEvents,
      mergedEvents, filteredTrips, filteredStopTimes, weekdayServiceIds,
      sortedMins, diffs, listMax, windowLo, windowHi, tenFeed, wkService]⟩
